import Mathlib

/-!
Shallow embedding of `packages/db/src/core/integration/vite-plugin-db.ts`:
the Astro DB Vite plugin (virtual-module resolver, load hook, virtual-module
content generators, and table recreation batch), together with a small
semantic model of the embedded SQLite client used to settle the
resynchronization claims.

External collaborators (node path/URL utilities, `JSON.stringify`, the DDL
string generators, the database client) are either taken as explicit function
parameters or modelled from the spec, as noted on each definition.
-/

namespace AstroDb

/-! ### String helpers (model of JS string primitives) -/

/-- Model of JS `String.prototype.startsWith` on character lists:
`leadsWith pre l` is true when `pre` is an initial segment of `l`. -/
def leadsWith : List Char → List Char → Bool
  | [], _ => true
  | _ :: _, [] => false
  | a :: as, b :: bs => a == b && leadsWith as bs

/-- `strStarts s pre` models JS `s.startsWith(pre)`. -/
def strStarts (s pre : String) : Bool :=
  leadsWith pre.data s.data

/-- Number of (possibly overlapping) occurrences of `needle` starting at each
position of `hay`, on character lists. -/
def strOccAux (needle : List Char) : List Char → Nat
  | [] => 0
  | c :: t => (if leadsWith needle (c :: t) then 1 else 0) + strOccAux needle t

/-- Number of occurrences of the (non-empty) `needle` in `hay`. -/
def strOcc (needle hay : String) : Nat :=
  strOccAux needle.data hay.data

/-- Total number of occurrences of `needle` counted inside each segment of a
segment list (occurrences are counted per segment). -/
def partsOcc (needle : String) (parts : List String) : Nat :=
  (parts.map (strOcc needle)).sum

/-- Model of JS `Array.prototype.join(sep)`. -/
def joinSep (sep : String) : List String → String
  | [] => ""
  | [x] => x
  | x :: y :: rest => x ++ sep ++ joinSep sep (y :: rest)

/-- Model of `JSON.stringify` on one string value: wrap in double quotes,
escaping backslash and double quote (control-character escaping is not
modelled; none of the claims depends on it). -/
def jsonEscapeChar (c : Char) : List Char :=
  if c = '"' ∨ c = '\\' then ['\\', c] else [c]

/-- Model of `JSON.stringify` applied to a string. -/
def jsonStringify (s : String) : String :=
  "\"" ++ String.mk (s.data.flatMap jsonEscapeChar) ++ "\""

/-- Model of `JSON.stringify` applied to an array of strings. -/
def jsonStringifyArr (xs : List String) : String :=
  "[" ++ joinSep "," (xs.map jsonStringify) ++ "]"

/-- Boolean membership of a string in a list (model of repeated `===`). -/
def bmem (x : String) : List String → Bool
  | [] => false
  | y :: ys => x == y || bmem x ys

/-! ### Constants of the plugin -/

/-- Modelled from the spec: the reserved virtual module specifier (declared in
`../consts.js`, which is not under `src/`): "a single well-known string". -/
def VIRTUAL_MODULE_ID : String := "astro:db"

/-- `WITH_SEED_VIRTUAL_MODULE_ID` from the source. -/
def WITH_SEED_VIRTUAL_MODULE_ID : String := "astro:db:seed"

/-- `resolved.virtual` from the source: `'\0' + VIRTUAL_MODULE_ID`. -/
def resolvedVirtual : String := "\x00" ++ VIRTUAL_MODULE_ID

/-- `resolved.seedVirtual` from the source: `'\0' + WITH_SEED_VIRTUAL_MODULE_ID`. -/
def resolvedSeedVirtual : String := "\x00" ++ WITH_SEED_VIRTUAL_MODULE_ID

/-- Modelled from the spec: `RUNTIME_IMPORT` from `../consts.js` (not under
`src/`), an import-specifier literal for the ambient runtime; its exact value
never matters to the claims. -/
def RUNTIME_IMPORT : String := "\"astro:db/runtime\""

/-- Modelled from the spec: `RUNTIME_CONFIG_IMPORT` from `../consts.js` (not
under `src/`). -/
def RUNTIME_CONFIG_IMPORT : String := "\"astro:db/runtime-config\""

/-- Modelled from the spec: `getRemoteDatabaseUrl()` from `../utils.js` (not
under `src/`); the spec calls it "a fixed default" remote endpoint. -/
def remoteDatabaseUrl : String := "https://db.services.astro.build"

/-- Modelled from the spec: `SEED_DEV_FILE_NAME` from `../../runtime/queries.js`
(not under `src/`): "a fixed small set of reserved file names". -/
def SEED_DEV_FILE_NAME : List String := ["seed.ts", "seed.js"]

/-- Modelled from the spec: the user seed file paths used for the
`import.meta.glob` argument, `/db/[name]` per the source comment
("Format as /db/[name].ts for Vite import.meta.glob"); the URL resolution
`new URL(name, getDbDirectoryUrl('file:///')).pathname` is external. -/
def userSeedFilePaths : List String := SEED_DEV_FILE_NAME.map (fun n => "/db/" ++ n)

/-! ### resolveId hook -/

/-- The `resolveId(id, rawImporter)` hook of `vitePluginDb`.

* `resolveImporter` models the bundler's `this.resolve(rawImporter)`,
  returning the resolved importer's `id` or `none` (JS `null`).
* `rawImporter = none` models JS `undefined`; the JS truthiness test
  `rawImporter ? ... : null` also treats the empty string as absent.
* `srcDirPath` is `normalizePath(fileURLToPath(params.srcDir))`, computed at
  plugin construction (the path conversion is external). -/
def resolveIdHook (connectToStudio : Bool) (srcDirPath : String)
    (resolveImporter : String → Option String)
    (id : String) (rawImporter : Option String) : Option String :=
  if id ≠ VIRTUAL_MODULE_ID then none
  else if connectToStudio then some resolvedVirtual
  else
    let importer : Option String :=
      match rawImporter with
      | none => none
      | some raw => if raw = "" then none else resolveImporter raw
    match importer with
    | none => some resolvedVirtual
    | some importerId =>
        if strStarts importerId srcDirPath then some resolvedSeedVirtual
        else some resolvedVirtual

/-! ### Content generators -/

/-- A seed file reference handed to the plugin: a path string or a URL
(of which only `.pathname` is consumed). -/
inductive SeedFile where
  | path (s : String)
  | url (pathname : String)

/-- The local `resolveId` helper of `getLocalVirtualModContents`:
`id.startsWith('.') ? resolve(fileURLToPath(root), id) : id`; `pathResolve`
models node's `path.resolve` (external) and `rootPath` is
`fileURLToPath(root)`. -/
def resolveSeedId (pathResolve : String → String → String) (rootPath : String)
    (id : String) : String :=
  if strStarts id "." then pathResolve rootPath id else id

/-- `integrationSeedFilePaths` of `getLocalVirtualModContents`:
strings go through `resolveSeedId`, URLs contribute their `pathname`. -/
def integrationSeedFilePaths (pathResolve : String → String → String)
    (rootPath : String) (seedFiles : List SeedFile) : List String :=
  seedFiles.map (fun sf =>
    match sf with
    | .path s => resolveSeedId pathResolve rootPath s
    | .url p => p)

/-- One deferred import thunk expression: `() => import(<json path>)`. -/
def seedThunk (filePath : String) : String :=
  "() => import(" ++ jsonStringify filePath ++ ")"

/-- `integrationSeedImports` of `getLocalVirtualModContents`. -/
def integrationSeedImports (pathResolve : String → String → String)
    (rootPath : String) (seedFiles : List SeedFile) : List String :=
  (integrationSeedFilePaths pathResolve rootPath seedFiles).map seedThunk

/-- One per-table export statement of `getStringifiedCollectionExports`:
`export const <name> = asDrizzleTable(<json name>, <json collection>, false)`.
`stringifyTable` models `JSON.stringify` on a collection value. -/
def exportLine {T : Type} (stringifyTable : T → String) (p : String × T) : String :=
  "export const " ++ p.1 ++ " = asDrizzleTable(" ++ jsonStringify p.1 ++ ", "
    ++ stringifyTable p.2 ++ ", false)"

/-- `getStringifiedCollectionExports(tables)`: the per-table export statements
joined by newlines, in declaration (insertion) order of the mapping
(`Object.entries` preserves insertion order). -/
def getStringifiedCollectionExports {T : Type} (stringifyTable : T → String)
    (tables : List (String × T)) : String :=
  joinSep "\n" (tables.map (exportLine stringifyTable))

/-- The `await seedLocal({...})` statement emitted when `shouldSeed` holds. -/
def seedStmt (thunks : List String) : String :=
  "await seedLocal(\x7b\n\tuserSeedGlob: import.meta.glob("
    ++ jsonStringifyArr userSeedFilePaths
    ++ ", { eager: true }),\n\tintegrationSeedImports: ["
    ++ joinSep "," thunks
    ++ "],\n\x7d);"

/-- `getLocalVirtualModContents({tables, root, seedFiles, shouldSeed})`.

* `dbUrlHref` is the serialization of `new URL(DB_PATH, root)` (URL
  resolution is external).
* `rootPath` is `fileURLToPath(root)` and `pathResolve` node's
  `path.resolve`, both external.
* The template literal of the source is transcribed piece for piece. -/
def getLocalVirtualModContents {T : Type} (stringifyTable : T → String)
    (pathResolve : String → String → String) (rootPath : String)
    (dbUrlHref : String) (tables : List (String × T))
    (seedFiles : List SeedFile) (shouldSeed : Bool) : String :=
  "\nimport { asDrizzleTable, createLocalDatabaseClient } from "
    ++ RUNTIME_IMPORT ++ ";\n"
    ++ (if shouldSeed then "import { seedLocal } from " ++ RUNTIME_IMPORT ++ ";" else "")
    ++ "\n\nconst dbUrl = " ++ jsonStringify dbUrlHref
    ++ ";\nexport const db = createLocalDatabaseClient({ dbUrl });\n\n"
    ++ (if shouldSeed then
          seedStmt (integrationSeedImports pathResolve rootPath seedFiles)
        else "")
    ++ "\n\nexport * from " ++ RUNTIME_CONFIG_IMPORT ++ ";\n\n"
    ++ getStringifiedCollectionExports stringifyTable tables

/-- `getStudioVirtualModContents({tables, appToken})`, transcribed piece for
piece from the source template literal. -/
def getStudioVirtualModContents {T : Type} (stringifyTable : T → String)
    (tables : List (String × T)) (appToken : String) : String :=
  "\nimport {asDrizzleTable, createRemoteDatabaseClient} from "
    ++ RUNTIME_IMPORT
    ++ ";\n\nexport const db = await createRemoteDatabaseClient("
    ++ jsonStringify appToken
    ++ ", import.meta.env.ASTRO_STUDIO_REMOTE_DB_URL ?? "
    ++ jsonStringify remoteDatabaseUrl
    ++ ");\n\nexport * from " ++ RUNTIME_CONFIG_IMPORT ++ ";\n\n"
    ++ getStringifiedCollectionExports stringifyTable tables
    ++ "\n\t"

/-! ### Segment decomposition of the generated texts

The generated text is the concatenation, in emission order, of atomic
segments: fixed template literals and interpolated values. The atoms are used
to state occurrence counts per segment. -/

/-- Atoms of one thunk expression. -/
def thunkAtoms (filePath : String) : List String :=
  ["() => import(", jsonStringify filePath, ")"]

/-- Atoms of the comma-joined thunk list. -/
def thunkListAtoms : List String → List String
  | [] => []
  | [fp] => thunkAtoms fp
  | fp :: fp' :: rest => thunkAtoms fp ++ ["," ] ++ thunkListAtoms (fp' :: rest)

/-- Atoms of the `await seedLocal({...})` statement. -/
def seedStmtAtoms (filePaths : List String) : List String :=
  ["await seedLocal(\x7b\n\tuserSeedGlob: import.meta.glob(",
    jsonStringifyArr userSeedFilePaths,
    ", { eager: true }),\n\tintegrationSeedImports: ["]
  ++ thunkListAtoms filePaths
  ++ ["],\n\x7d);"]

/-- Atoms of one per-table export statement. -/
def exportLineAtoms {T : Type} (stringifyTable : T → String) (p : String × T) :
    List String :=
  ["export const ", p.1, " = asDrizzleTable(", jsonStringify p.1, ", ",
    stringifyTable p.2, ", false)"]

/-- Atoms of the newline-joined per-table export statements. -/
def exportsAtoms {T : Type} (stringifyTable : T → String) :
    List (String × T) → List String
  | [] => []
  | [p] => exportLineAtoms stringifyTable p
  | p :: p' :: rest =>
      exportLineAtoms stringifyTable p ++ ["\n"]
        ++ exportsAtoms stringifyTable (p' :: rest)

/-- Atoms of the local virtual module contents, in emission order. -/
def localModAtoms {T : Type} (stringifyTable : T → String)
    (pathResolve : String → String → String) (rootPath : String)
    (dbUrlHref : String) (tables : List (String × T))
    (seedFiles : List SeedFile) (shouldSeed : Bool) : List String :=
  ["\nimport { asDrizzleTable, createLocalDatabaseClient } from ",
    RUNTIME_IMPORT, ";\n"]
  ++ (if shouldSeed then
        ["import { seedLocal } from ", RUNTIME_IMPORT, ";"]
      else [])
  ++ ["\n\nconst dbUrl = ", jsonStringify dbUrlHref,
      ";\nexport const db = createLocalDatabaseClient({ dbUrl });\n\n"]
  ++ (if shouldSeed then
        seedStmtAtoms (integrationSeedFilePaths pathResolve rootPath seedFiles)
      else [])
  ++ ["\n\nexport * from ", RUNTIME_CONFIG_IMPORT, ";\n\n"]
  ++ exportsAtoms stringifyTable tables

/-- Atoms of the studio virtual module contents, in emission order. -/
def studioModAtoms {T : Type} (stringifyTable : T → String)
    (tables : List (String × T)) (appToken : String) : List String :=
  ["\nimport {asDrizzleTable, createRemoteDatabaseClient} from ",
    RUNTIME_IMPORT,
    ";\n\nexport const db = await createRemoteDatabaseClient(",
    jsonStringify appToken,
    ", import.meta.env.ASTRO_STUDIO_REMOTE_DB_URL ?? ",
    jsonStringify remoteDatabaseUrl,
    ");\n\nexport * from ", RUNTIME_CONFIG_IMPORT, ";\n\n"]
  ++ exportsAtoms stringifyTable tables
  ++ ["\n\t"]

/-- The fixed (input-independent) atoms of the seeded local module text, in
emission order. -/
def localFixedAtomsSeeded : List String :=
  ["\nimport { asDrizzleTable, createLocalDatabaseClient } from ",
    RUNTIME_IMPORT, ";\n", "import { seedLocal } from ", RUNTIME_IMPORT,
    ";", "\n\nconst dbUrl = ",
    ";\nexport const db = createLocalDatabaseClient({ dbUrl });\n\n",
    "await seedLocal(\x7b\n\tuserSeedGlob: import.meta.glob(",
    jsonStringifyArr userSeedFilePaths,
    ", { eager: true }),\n\tintegrationSeedImports: [", "],\n\x7d);",
    "\n\nexport * from ", RUNTIME_CONFIG_IMPORT, ";\n\n"]

/-- The fixed (input-independent) atoms of the unseeded local module text. -/
def localFixedAtomsUnseeded : List String :=
  ["\nimport { asDrizzleTable, createLocalDatabaseClient } from ",
    RUNTIME_IMPORT, ";\n", "\n\nconst dbUrl = ",
    ";\nexport const db = createLocalDatabaseClient({ dbUrl });\n\n",
    "\n\nexport * from ", RUNTIME_CONFIG_IMPORT, ";\n\n"]

/-- The fixed (input-independent) atoms of the studio module text. -/
def studioFixedAtoms : List String :=
  ["\nimport {asDrizzleTable, createRemoteDatabaseClient} from ",
    RUNTIME_IMPORT,
    ";\n\nexport const db = await createRemoteDatabaseClient(",
    ", import.meta.env.ASTRO_STUDIO_REMOTE_DB_URL ?? ",
    jsonStringify remoteDatabaseUrl,
    ");\n\nexport * from ", RUNTIME_CONFIG_IMPORT, ";\n\n", "\n\t"]

/-! ### load hook -/

/-- Outcome of a `load` call: whether the module id was handled, and the text. -/
inductive LoadRes where
  | declined
  | contents (s : String)
deriving DecidableEq

/-- Result of a completed `load` call: whether `recreateTables` ran during the
call, and what the hook returned. -/
structure LoadOutcome where
  recreateRan : Bool
  res : LoadRes
deriving DecidableEq

/-- The `load(id)` hook of `vitePluginDb`.

* `seedFilePaths` is the list computed at plugin construction from
  `SEED_DEV_FILE_NAME` and the project root (the URL-to-path conversion is
  external).
* `recreateOutcome` models the awaited result of
  `recreateTables({db: createLocalDatabaseClient(...), tables})`: the client
  construction and the batch execution are external; an `Except.error` models
  a rejected promise, which propagates out of `load`.
* `studioText` and `localText` are the contents produced by the generators;
  `localText` receives `id === resolved.seedVirtual` as `shouldSeed`. -/
def loadHook (connectToStudio : Bool) (seedFilePaths : List String)
    (recreateOutcome : Except String Unit)
    (studioText : String) (localText : Bool → String)
    (id : String) : Except String LoadOutcome :=
  let seedHit : Bool := seedFilePaths.any (fun f => id == f)
  let afterRecreate : Except String Unit :=
    if seedHit then recreateOutcome else .ok ()
  match afterRecreate with
  | .error e => .error e
  | .ok _ =>
      if id ≠ resolvedVirtual ∧ id ≠ resolvedSeedVirtual then
        .ok ⟨seedHit, .declined⟩
      else if connectToStudio then
        .ok ⟨seedHit, .contents studioText⟩
      else
        .ok ⟨seedHit, .contents (localText (id == resolvedSeedVirtual))⟩

/-- The `load` hook with the actual content generators plugged in, as in
`vitePluginDb` (the studio branch uses `params.appToken`, the local branch
uses `params.root` and the late-bound `tables`/`seedFiles` snapshots). -/
def vitePluginDbLoad {T : Type} (stringifyTable : T → String)
    (pathResolve : String → String → String) (rootPath : String)
    (dbUrlHref : String) (tables : List (String × T))
    (seedFiles : List SeedFile) (appToken : String)
    (connectToStudio : Bool) (seedFilePaths : List String)
    (recreateOutcome : Except String Unit)
    (id : String) : Except String LoadOutcome :=
  loadHook connectToStudio seedFilePaths recreateOutcome
    (getStudioVirtualModContents stringifyTable tables appToken)
    (fun shouldSeed =>
      getLocalVirtualModContents stringifyTable pathResolve rootPath dbUrlHref
        tables seedFiles shouldSeed)
    id

/-! ### recreateTables: the statement batch -/

/-- The SQL text of the deferred-foreign-keys pragma. -/
def deferFKStmt : String := "pragma defer_foreign_keys=true;"

/-- The DROP statement for one table:
`'DROP TABLE IF EXISTS ' + sqlite.escapeName(name)`; `escapeName` is the
external dialect's identifier quoting. -/
def dropStmt (escapeName : String → String) (name : String) : String :=
  "DROP TABLE IF EXISTS " ++ escapeName name

/-- `setupQueries` of `recreateTables`: the loop pushes, for each table in
declaration order, its DROP statement, its CREATE statement
(`getCreateTableQuery`, external DDL generator) and its CREATE INDEX
statements (`getCreateIndexQueries`, external DDL generator). -/
def setupQueries {T : Type} (getCreateTableQuery : String → T → String)
    (getCreateIndexQueries : String → T → List String)
    (escapeName : String → String) (tables : List (String × T)) : List String :=
  tables.foldl
    (fun acc p =>
      acc ++ (dropStmt escapeName p.1 :: getCreateTableQuery p.1 p.2
        :: getCreateIndexQueries p.1 p.2))
    []

/-- The batch `recreateTables` submits to the client:
`[db.run(sql, defer_foreign_keys), ...setupQueries.map(db.run)]`. -/
def recreateTablesBatch {T : Type} (getCreateTableQuery : String → T → String)
    (getCreateIndexQueries : String → T → List String)
    (escapeName : String → String) (tables : List (String × T)) : List String :=
  deferFKStmt
    :: setupQueries getCreateTableQuery getCreateIndexQueries escapeName tables

/-! ### Semantic model of the embedded database client

Modelled from the spec: the embedded SQLite client and the meaning of the
DDL statements `recreateTables` submits are external collaborators ("the
underlying embedded/remote database clients provide `run(statement)` and
`batch(statements)` primitives" with "all-or-nothing semantics"). The batch
is modelled structurally: per table, a DROP-IF-EXISTS, a CREATE, and one
CREATE-INDEX per generated index name (`idxNames` abstracts the names the
external DDL generator would emit). A database state holds the present
tables, the present indexes (tagged with their owning table, since SQLite
drops a table's indexes with the table), and the stored rows (tagged with
their table). -/

/-- One statement of the structural recreation batch. -/
inductive Op (T : Type) where
  | deferFK
  | drop (name : String)
  | create (name : String) (t : T)
  | createIdx (table : String) (idx : String)

/-- A database state: tables, indexes (owning table × index name), rows
(owning table × row payload). -/
structure Db (T : Type) where
  tbls : List (String × T)
  idxs : List (String × String)
  rows : List (String × Nat)

/-- Execute one statement against a state; errors model SQLite errors
(duplicate table, duplicate index name, missing table). `DROP TABLE IF
EXISTS` never errors and removes the table's indexes and rows with it. -/
def applyOp {T : Type} (d : Db T) : Op T → Except String (Db T)
  | .deferFK => .ok d
  | .drop n =>
      .ok ⟨d.tbls.filter (fun p => !(p.1 == n)),
           d.idxs.filter (fun p => !(p.1 == n)),
           d.rows.filter (fun p => !(p.1 == n))⟩
  | .create n t =>
      if d.tbls.any (fun p => p.1 == n) then .error ("table already exists: " ++ n)
      else .ok ⟨d.tbls ++ [(n, t)], d.idxs, d.rows⟩
  | .createIdx tbl i =>
      if d.idxs.any (fun p => p.2 == i) then .error ("index already exists: " ++ i)
      else if !(d.tbls.any (fun p => p.1 == tbl)) then
        .error ("no such table: " ++ tbl)
      else .ok ⟨d.tbls, d.idxs ++ [(tbl, i)], d.rows⟩

/-- Execute a statement sequence; an error aborts with no partial state
(the client's batch is all-or-nothing). -/
def execOps {T : Type} (d : Db T) : List (Op T) → Except String (Db T)
  | [] => .ok d
  | op :: rest =>
      match applyOp d op with
      | .error e => .error e
      | .ok d' => execOps d' rest

/-- The structural triple for one table: DROP, CREATE, then the CREATE INDEX
statements for the index names the DDL generator emits. -/
def tableOps {T : Type} (idxNames : String → T → List String)
    (p : String × T) : List (Op T) :=
  Op.drop p.1 :: Op.create p.1 p.2
    :: (idxNames p.1 p.2).map (fun i => Op.createIdx p.1 i)

/-- The structural batch of `recreateTables`: the deferred-foreign-keys
statement first, then each table's triple in declaration order. -/
def recreateOps {T : Type} (idxNames : String → T → List String)
    (tables : List (String × T)) : List (Op T) :=
  Op.deferFK :: tables.flatMap (tableOps idxNames)

/-- `recreateTables` against a database state: execute the batch. -/
def runRecreateTables {T : Type} (idxNames : String → T → List String)
    (tables : List (String × T)) (d : Db T) : Except String (Db T) :=
  execOps d (recreateOps idxNames tables)

/-- The index names contributed by each table of `tables`, tagged with the
owning table, in batch order. -/
def newIdxs {T : Type} (idxNames : String → T → List String)
    (tables : List (String × T)) : List (String × String) :=
  tables.flatMap (fun p => (idxNames p.1 p.2).map (fun i => (p.1, i)))

/-- All index names contributed by `tables`, in batch order. -/
def allNewIdx {T : Type} (idxNames : String → T → List String)
    (tables : List (String × T)) : List String :=
  tables.flatMap (fun p => idxNames p.1 p.2)

/-! ## Helper lemmas -/

theorem foldl_append_eq_flatMap {α β : Type} (f : α → List β) :
    ∀ (l : List α) (acc : List β),
      l.foldl (fun a x => a ++ f x) acc = acc ++ l.flatMap f := by
  intro l
  induction l with
  | nil => intro acc; simp
  | cons x xs ih =>
      intro acc
      simp only [List.foldl_cons, List.flatMap_cons, ih, List.append_assoc]

theorem resolvedVirtual_ne_seedVirtual : resolvedVirtual ≠ resolvedSeedVirtual := by
  decide

theorem resolveIdHook_local_none (srcDirPath : String)
    (resolveImporter : String → Option String) :
    resolveIdHook false srcDirPath resolveImporter VIRTUAL_MODULE_ID none
      = some resolvedVirtual := by
  unfold resolveIdHook
  rw [if_neg (by simp), if_neg (by simp)]

theorem resolveIdHook_local_empty (srcDirPath : String)
    (resolveImporter : String → Option String) :
    resolveIdHook false srcDirPath resolveImporter VIRTUAL_MODULE_ID (some "")
      = some resolvedVirtual := by
  unfold resolveIdHook
  rw [if_neg (by simp), if_neg (by simp)]
  simp

theorem resolveIdHook_local_unresolved (srcDirPath : String)
    (resolveImporter : String → Option String) (raw : String)
    (hraw : raw ≠ "") (hri : resolveImporter raw = none) :
    resolveIdHook false srcDirPath resolveImporter VIRTUAL_MODULE_ID (some raw)
      = some resolvedVirtual := by
  unfold resolveIdHook
  rw [if_neg (by simp), if_neg (by simp)]
  simp [hraw, hri]

theorem resolveIdHook_local_resolved (srcDirPath : String)
    (resolveImporter : String → Option String) (raw importerId : String)
    (hraw : raw ≠ "") (hri : resolveImporter raw = some importerId) :
    resolveIdHook false srcDirPath resolveImporter VIRTUAL_MODULE_ID (some raw)
      = (if strStarts importerId srcDirPath then some resolvedSeedVirtual
         else some resolvedVirtual) := by
  unfold resolveIdHook
  rw [if_neg (by simp), if_neg (by simp)]
  simp [if_neg hraw, hri]

theorem sjoin_cons (a : String) (l : List String) :
    String.join (a :: l) = a ++ String.join l := by
  simp [String.join]
  induction l generalizing a with
  | nil => simp
  | cons b t ih =>
      simp [List.foldl_cons]
      rw [ih (a ++ b), ih b, String.append_assoc]

theorem sjoin_append (l1 l2 : List String) :
    String.join (l1 ++ l2) = String.join l1 ++ String.join l2 := by
  induction l1 with
  | nil => simp [String.join]
  | cons a t ih => simp [sjoin_cons, ih, String.append_assoc]

theorem sjoin_nil : String.join [] = "" := rfl

theorem partsOcc_nil (needle : String) : partsOcc needle [] = 0 := rfl

theorem partsOcc_cons (needle a : String) (l : List String) :
    partsOcc needle (a :: l) = strOcc needle a + partsOcc needle l := by
  simp [partsOcc]

theorem partsOcc_append (needle : String) (l1 l2 : List String) :
    partsOcc needle (l1 ++ l2) = partsOcc needle l1 + partsOcc needle l2 := by
  simp [partsOcc]

theorem thunkListAtoms_join (fps : List String) :
    String.join (thunkListAtoms fps) = joinSep "," (fps.map seedThunk) := by
  induction fps with
  | nil => rfl
  | cons fp rest ih =>
      cases rest with
      | nil =>
          simp only [thunkListAtoms, thunkAtoms, List.map_cons, List.map_nil,
            joinSep, seedThunk, sjoin_cons, sjoin_nil, String.append_empty,
            String.append_assoc]
      | cons fp' rest' =>
          simp only [thunkListAtoms, thunkAtoms, List.map_cons, joinSep,
            sjoin_append, sjoin_cons, sjoin_nil, ih, seedThunk,
            String.append_empty, String.empty_append, String.append_assoc,
            List.append_assoc, List.cons_append, List.nil_append]

theorem seedStmtAtoms_join (fps : List String) :
    String.join (seedStmtAtoms fps) = seedStmt (fps.map seedThunk) := by
  simp only [seedStmtAtoms, sjoin_append, sjoin_cons, sjoin_nil,
    thunkListAtoms_join, seedStmt, String.append_empty, String.empty_append,
    String.append_assoc, List.cons_append, List.nil_append]

theorem exportLineAtoms_join {T : Type} (stringifyTable : T → String)
    (p : String × T) :
    String.join (exportLineAtoms stringifyTable p) = exportLine stringifyTable p := by
  simp only [exportLineAtoms, exportLine, sjoin_cons, sjoin_nil,
    String.append_empty, String.append_assoc]

theorem exportsAtoms_join {T : Type} (stringifyTable : T → String)
    (tables : List (String × T)) :
    String.join (exportsAtoms stringifyTable tables)
      = getStringifiedCollectionExports stringifyTable tables := by
  induction tables with
  | nil => rfl
  | cons p rest ih =>
      cases rest with
      | nil =>
          simp only [exportsAtoms, getStringifiedCollectionExports,
            List.map_cons, List.map_nil, joinSep, exportLineAtoms_join]
      | cons p' rest' =>
          simp only [exportsAtoms, sjoin_append, sjoin_cons, sjoin_nil, ih,
            String.append_empty, String.empty_append, String.append_assoc]
          simp only [getStringifiedCollectionExports, List.map_cons, joinSep]
            at ih ⊢
          rw [← exportLineAtoms_join stringifyTable p, String.append_assoc]

theorem localModAtoms_join {T : Type} (stringifyTable : T → String)
    (pathResolve : String → String → String) (rootPath dbUrlHref : String)
    (tables : List (String × T)) (seedFiles : List SeedFile)
    (shouldSeed : Bool) :
    String.join (localModAtoms stringifyTable pathResolve rootPath dbUrlHref
        tables seedFiles shouldSeed)
      = getLocalVirtualModContents stringifyTable pathResolve rootPath dbUrlHref
          tables seedFiles shouldSeed := by
  cases shouldSeed with
  | false =>
      simp only [localModAtoms, getLocalVirtualModContents, Bool.false_eq_true,
        if_false, sjoin_append, sjoin_cons, sjoin_nil, exportsAtoms_join,
        String.append_empty, String.empty_append, String.append_assoc,
        List.append_assoc, List.cons_append, List.nil_append]
  | true =>
      simp only [localModAtoms, getLocalVirtualModContents, if_true,
        sjoin_append, sjoin_cons, sjoin_nil, seedStmtAtoms_join,
        exportsAtoms_join, integrationSeedImports, String.append_empty,
        String.empty_append, String.append_assoc, List.append_assoc,
        List.cons_append, List.nil_append]

theorem studioModAtoms_join {T : Type} (stringifyTable : T → String)
    (tables : List (String × T)) (appToken : String) :
    String.join (studioModAtoms stringifyTable tables appToken)
      = getStudioVirtualModContents stringifyTable tables appToken := by
  simp only [studioModAtoms, getStudioVirtualModContents, sjoin_append,
    sjoin_cons, sjoin_nil, exportsAtoms_join, String.append_empty,
    String.empty_append, String.append_assoc, List.cons_append,
    List.nil_append]

theorem partsOcc_thunkListAtoms_zero (needle : String) (fps : List String)
    (h1 : strOcc needle "() => import(" = 0) (h2 : strOcc needle ")" = 0)
    (h3 : strOcc needle "," = 0)
    (h : ∀ fp ∈ fps, strOcc needle (jsonStringify fp) = 0) :
    partsOcc needle (thunkListAtoms fps) = 0 := by
  induction fps with
  | nil => rfl
  | cons fp rest ih =>
      cases rest with
      | nil =>
          simp [thunkListAtoms, thunkAtoms, partsOcc_cons, partsOcc_nil,
            h1, h2, h fp (by simp)]
      | cons fp' rest' =>
          have hrest : ∀ x ∈ fp' :: rest', strOcc needle (jsonStringify x) = 0 :=
            fun x hx => h x (by simp [hx])
          simp [thunkListAtoms, thunkAtoms, partsOcc_append, partsOcc_cons,
            partsOcc_nil, h1, h2, h3, h fp (by simp), ih hrest]

theorem partsOcc_thunkListAtoms_marker (fps : List String)
    (h : ∀ fp ∈ fps, strOcc "() => import(" (jsonStringify fp) = 0) :
    partsOcc "() => import(" (thunkListAtoms fps) = fps.length := by
  have e1 : strOcc "() => import(" "() => import(" = 1 := by decide
  have e2 : strOcc "() => import(" ")" = 0 := by decide
  have e3 : strOcc "() => import(" "," = 0 := by decide
  induction fps with
  | nil => rfl
  | cons fp rest ih =>
      cases rest with
      | nil =>
          simp [thunkListAtoms, thunkAtoms, partsOcc_cons, partsOcc_nil,
            e1, e2, h fp (by simp)]
      | cons fp' rest' =>
          have hrest : ∀ x ∈ fp' :: rest', strOcc "() => import(" (jsonStringify x) = 0 :=
            fun x hx => h x (by simp [hx])
          simp only [thunkListAtoms, thunkAtoms, partsOcc_append, partsOcc_cons,
            partsOcc_nil, e1, e2, e3, h fp (by simp), ih hrest,
            List.cons_append, List.nil_append, List.length_cons]
          omega

theorem partsOcc_exportsAtoms_zero (needle : String) {T : Type}
    (stringifyTable : T → String) (tables : List (String × T))
    (h1 : strOcc needle "export const " = 0)
    (h2 : strOcc needle " = asDrizzleTable(" = 0)
    (h3 : strOcc needle ", " = 0) (h4 : strOcc needle ", false)" = 0)
    (h5 : strOcc needle "\n" = 0)
    (h : ∀ p ∈ tables, strOcc needle p.1 = 0
      ∧ strOcc needle (jsonStringify p.1) = 0
      ∧ strOcc needle (stringifyTable p.2) = 0) :
    partsOcc needle (exportsAtoms stringifyTable tables) = 0 := by
  induction tables with
  | nil => rfl
  | cons p rest ih =>
      have hp := h p (by simp)
      cases rest with
      | nil =>
          simp [exportsAtoms, exportLineAtoms, partsOcc_cons, partsOcc_nil,
            h1, h2, h3, h4, hp.1, hp.2.1, hp.2.2]
      | cons p' rest' =>
          have hrest : ∀ x ∈ p' :: rest', strOcc needle x.1 = 0
              ∧ strOcc needle (jsonStringify x.1) = 0
              ∧ strOcc needle (stringifyTable x.2) = 0 :=
            fun x hx => h x (by simp [hx])
          simp [exportsAtoms, exportLineAtoms, partsOcc_append, partsOcc_cons,
            partsOcc_nil, h1, h2, h3, h4, h5, hp.1, hp.2.1, hp.2.2, ih hrest]

theorem partsOcc_localModAtoms_seeded (needle : String) {T : Type}
    (stringifyTable : T → String) (pathResolve : String → String → String)
    (rootPath dbUrlHref : String) (tables : List (String × T))
    (seedFiles : List SeedFile) :
    partsOcc needle (localModAtoms stringifyTable pathResolve rootPath dbUrlHref
        tables seedFiles true)
      = partsOcc needle localFixedAtomsSeeded
        + strOcc needle (jsonStringify dbUrlHref)
        + partsOcc needle (thunkListAtoms
            (integrationSeedFilePaths pathResolve rootPath seedFiles))
        + partsOcc needle (exportsAtoms stringifyTable tables) := by
  simp only [localModAtoms, seedStmtAtoms, localFixedAtomsSeeded, if_true,
    partsOcc_append, partsOcc_cons, partsOcc_nil, List.cons_append,
    List.nil_append, List.append_assoc]
  omega

theorem partsOcc_localModAtoms_unseeded (needle : String) {T : Type}
    (stringifyTable : T → String) (pathResolve : String → String → String)
    (rootPath dbUrlHref : String) (tables : List (String × T))
    (seedFiles : List SeedFile) :
    partsOcc needle (localModAtoms stringifyTable pathResolve rootPath dbUrlHref
        tables seedFiles false)
      = partsOcc needle localFixedAtomsUnseeded
        + strOcc needle (jsonStringify dbUrlHref)
        + partsOcc needle (exportsAtoms stringifyTable tables) := by
  simp only [localModAtoms, localFixedAtomsUnseeded, Bool.false_eq_true,
    if_false, partsOcc_append, partsOcc_cons, partsOcc_nil, List.cons_append,
    List.nil_append, List.append_assoc]
  omega

theorem partsOcc_studioModAtoms (needle : String) {T : Type}
    (stringifyTable : T → String) (tables : List (String × T))
    (appToken : String) :
    partsOcc needle (studioModAtoms stringifyTable tables appToken)
      = partsOcc needle studioFixedAtoms
        + strOcc needle (jsonStringify appToken)
        + partsOcc needle (exportsAtoms stringifyTable tables) := by
  simp only [studioModAtoms, studioFixedAtoms, partsOcc_append, partsOcc_cons,
    partsOcc_nil, List.cons_append, List.nil_append, List.append_assoc]
  omega

theorem any_beq_iff_mem (x : String) (l : List String) :
    (l.any (fun f => x == f)) = true ↔ x ∈ l := by
  simp

theorem loadHook_hit_error (connectToStudio : Bool) (seedFilePaths : List String)
    (studioText : String) (localText : Bool → String) (id : String) (e : String)
    (hhit : id ∈ seedFilePaths) :
    loadHook connectToStudio seedFilePaths (.error e) studioText localText id
      = .error e := by
  have h1 : (seedFilePaths.any fun f => id == f) = true :=
    (any_beq_iff_mem id seedFilePaths).mpr hhit
  simp [loadHook, h1]

theorem loadHook_hit_ok_declined (connectToStudio : Bool)
    (seedFilePaths : List String) (studioText : String)
    (localText : Bool → String) (id : String)
    (hhit : id ∈ seedFilePaths) (hv : id ≠ resolvedVirtual)
    (hsv : id ≠ resolvedSeedVirtual) :
    loadHook connectToStudio seedFilePaths (.ok ()) studioText localText id
      = .ok ⟨true, .declined⟩ := by
  have h1 : (seedFilePaths.any fun f => id == f) = true :=
    (any_beq_iff_mem id seedFilePaths).mpr hhit
  simp [loadHook, h1, hv, hsv]

theorem loadHook_miss_seedVirtual (connectToStudio : Bool)
    (seedFilePaths : List String) (recreateOutcome : Except String Unit)
    (studioText : String) (localText : Bool → String)
    (hns : resolvedSeedVirtual ∉ seedFilePaths) :
    loadHook connectToStudio seedFilePaths recreateOutcome studioText localText
        resolvedSeedVirtual
      = .ok ⟨false, .contents
          (if connectToStudio then studioText else localText true)⟩ := by
  have hno : (seedFilePaths.any (fun f => resolvedSeedVirtual == f)) = false := by
    rw [← Bool.not_eq_true]
    intro h
    exact hns ((any_beq_iff_mem _ _).mp h)
  cases connectToStudio <;> simp [loadHook, hno]

theorem loadHook_miss_virtual (connectToStudio : Bool)
    (seedFilePaths : List String) (recreateOutcome : Except String Unit)
    (studioText : String) (localText : Bool → String)
    (hns : resolvedVirtual ∉ seedFilePaths) :
    loadHook connectToStudio seedFilePaths recreateOutcome studioText localText
        resolvedVirtual
      = .ok ⟨false, .contents
          (if connectToStudio then studioText else localText false)⟩ := by
  have hno : (seedFilePaths.any (fun f => resolvedVirtual == f)) = false := by
    rw [← Bool.not_eq_true]
    intro h
    exact hns ((any_beq_iff_mem _ _).mp h)
  have hne : (resolvedVirtual == resolvedSeedVirtual) = false := by decide
  cases connectToStudio <;> simp [loadHook, hno, hne, resolvedVirtual_ne_seedVirtual]

/-! ### Lemmas for the database semantics -/

theorem bmem_iff (x : String) (l : List String) : bmem x l = true ↔ x ∈ l := by
  induction l with
  | nil => simp [bmem]
  | cons y ys ih => simp [bmem, ih]

theorem bmem_eq_false_iff (x : String) (l : List String) :
    bmem x l = false ↔ x ∉ l := by
  rw [← Bool.not_eq_true, not_iff_not, bmem_iff]

theorem filterb_comp {α : Type} (p q : α → Bool) (l : List α) :
    (l.filter p).filter q = l.filter (fun a => q a && p a) :=
  List.filter_filter p l

theorem filter_not_then_filter {α : Type} (f : α → Bool) (l : List α) :
    (l.filter (fun a => !(f a))).filter f = [] := by
  rw [filterb_comp]
  refine List.filter_eq_nil_iff.mpr ?_
  intro a _
  cases h : f a <;> simp [h]

theorem filter_not_idem {α : Type} (f : α → Bool) (l : List α) :
    (l.filter (fun a => !(f a))).filter (fun a => !(f a))
      = l.filter (fun a => !(f a)) := by
  rw [filterb_comp]
  exact List.filter_congr (fun a _ => by cases h : f a <;> simp [h])

theorem keyfilter_ne_nmem {β : Type} (n : String) (ns : List String)
    (l : List (String × β)) :
    (l.filter (fun p => !(p.1 == n))).filter (fun p => !(bmem p.1 ns))
      = l.filter (fun p => !(bmem p.1 (n :: ns))) := by
  rw [filterb_comp]
  exact List.filter_congr (fun p _ => by
    cases h1 : p.1 == n <;> cases h2 : bmem p.1 ns <;> simp [bmem, h1, h2])

theorem keyfilter_ne_mem {β : Type} (n : String) (ns : List String)
    (hn : n ∉ ns) (l : List (String × β)) :
    (l.filter (fun p => !(p.1 == n))).filter (fun p => bmem p.1 ns)
      = l.filter (fun p => bmem p.1 ns) := by
  rw [filterb_comp]
  refine List.filter_congr (fun p _ => ?_)
  cases h2 : bmem p.1 ns with
  | false => simp
  | true =>
      have hp : p.1 ∈ ns := (bmem_iff _ _).mp h2
      have : (p.1 == n) = false := by
        refine beq_eq_false_iff_ne.mpr ?_
        intro h
        exact hn (h ▸ hp)
      simp [this]

theorem keyfilter_keep_all {β : Type} (ns : List String)
    (l : List (String × β)) (h : ∀ p ∈ l, p.1 ∈ ns) :
    l.filter (fun p => bmem p.1 ns) = l :=
  List.filter_eq_self.mpr (fun p hp => (bmem_iff _ _).mpr (h p hp))

theorem keyfilter_drop_all {β : Type} (ns : List String)
    (l : List (String × β)) (h : ∀ p ∈ l, p.1 ∈ ns) :
    l.filter (fun p => !(bmem p.1 ns)) = [] :=
  List.filter_eq_nil_iff.mpr (fun p hp => by
    simp [(bmem_iff p.1 ns).mpr (h p hp)])

theorem keyfilter_not_keep_all {β : Type} (ns : List String)
    (l : List (String × β)) (h : ∀ p ∈ l, p.1 ∉ ns) :
    l.filter (fun p => !(bmem p.1 ns)) = l :=
  List.filter_eq_self.mpr (fun p hp => by
    simp [(bmem_eq_false_iff p.1 ns).mpr (h p hp)])

theorem keyfilter_sub {β : Type} (ns ms : List String)
    (hsub : ∀ x, x ∈ ns → x ∈ ms) (l : List (String × β)) :
    (l.filter (fun p => bmem p.1 ms)).filter (fun p => bmem p.1 ns)
      = l.filter (fun p => bmem p.1 ns) := by
  rw [filterb_comp]
  refine List.filter_congr (fun p _ => ?_)
  cases h2 : bmem p.1 ns with
  | false => simp
  | true =>
      have : bmem p.1 ms = true := (bmem_iff _ _).mpr (hsub _ ((bmem_iff _ _).mp h2))
      simp [this]

theorem any_key_filter_self {β : Type} (n : String) (l : List (String × β)) :
    ((l.filter (fun p => !(p.1 == n))).any (fun p => p.1 == n)) = false := by
  refine List.any_eq_false.mpr ?_
  intro p hp
  have := List.of_mem_filter hp
  simpa using this

theorem newIdxs_nil {T : Type} (idxNames : String → T → List String) :
    newIdxs idxNames [] = [] := rfl

theorem newIdxs_cons {T : Type} (idxNames : String → T → List String)
    (p : String × T) (ts : List (String × T)) :
    newIdxs idxNames (p :: ts)
      = (idxNames p.1 p.2).map (fun i => (p.1, i)) ++ newIdxs idxNames ts := by
  simp [newIdxs]

theorem allNewIdx_nil {T : Type} (idxNames : String → T → List String) :
    allNewIdx idxNames [] = [] := rfl

theorem allNewIdx_cons {T : Type} (idxNames : String → T → List String)
    (p : String × T) (ts : List (String × T)) :
    allNewIdx idxNames (p :: ts)
      = idxNames p.1 p.2 ++ allNewIdx idxNames ts := by
  simp [allNewIdx]

theorem mem_newIdxs_key {T : Type} (idxNames : String → T → List String)
    (ts : List (String × T)) :
    ∀ q ∈ newIdxs idxNames ts, q.1 ∈ ts.map Prod.fst := by
  intro q hq
  simp only [newIdxs, List.mem_flatMap] at hq
  obtain ⟨p, hp, hq⟩ := hq
  simp only [List.mem_map] at hq
  obtain ⟨i, _, rfl⟩ := hq
  exact List.mem_map_of_mem Prod.fst hp

theorem mem_newIdxs_snd {T : Type} (idxNames : String → T → List String)
    (ts : List (String × T)) :
    ∀ q ∈ newIdxs idxNames ts, q.2 ∈ allNewIdx idxNames ts := by
  intro q hq
  simp only [newIdxs, List.mem_flatMap] at hq
  obtain ⟨p, hp, hq⟩ := hq
  simp only [List.mem_map] at hq
  obtain ⟨i, hi, rfl⟩ := hq
  simp only [allNewIdx, List.mem_flatMap]
  exact ⟨p, hp, hi⟩

theorem execOps_deferFK {T : Type} (d : Db T) (l : List (Op T)) :
    execOps d (Op.deferFK :: l) = execOps d l := rfl

theorem execOps_append {T : Type} (l1 : List (Op T)) :
    ∀ (d : Db T) (l2 : List (Op T)),
      execOps d (l1 ++ l2)
        = match execOps d l1 with
          | .error e => .error e
          | .ok d' => execOps d' l2 := by
  induction l1 with
  | nil => intro d l2; simp [execOps]
  | cons op rest ih =>
      intro d l2
      simp only [List.cons_append, execOps]
      cases applyOp d op with
      | error e => rfl
      | ok d1 => exact ih d1 l2

theorem execOps_idxBlock_shape {T : Type} (n : String) :
    ∀ (is : List String) (d d' : Db T),
      execOps d (is.map (Op.createIdx n)) = .ok d' →
      d'.tbls = d.tbls ∧ d'.rows = d.rows
      ∧ d'.idxs = d.idxs ++ is.map (fun i => (n, i))
      ∧ is.Nodup
      ∧ (∀ i ∈ is, ∀ q ∈ d.idxs, q.2 ≠ i) := by
  intro is
  induction is with
  | nil =>
      intro d d' h
      simp only [List.map_nil, execOps] at h
      cases h
      simp
  | cons i is' ih =>
      intro d d' h
      simp only [List.map_cons, execOps, applyOp] at h
      by_cases hdup : (d.idxs.any fun p => p.2 == i) = true
      · rw [if_pos hdup] at h
        cases h
      · rw [if_neg hdup] at h
        by_cases htb : (!(d.tbls.any fun p => p.1 == n)) = true
        · rw [if_pos htb] at h
          cases h
        · rw [if_neg htb] at h
          obtain ⟨htbls, hrows, hidxs, hnd, hfresh⟩ :=
            ih ⟨d.tbls, d.idxs ++ [(n, i)], d.rows⟩ d' h
          have hmem : (n, i) ∈ d.idxs ++ [(n, i)] := by simp
          refine ⟨htbls, hrows, ?_, ?_, ?_⟩
          · rw [hidxs]
            simp [List.append_assoc]
          · refine List.nodup_cons.mpr ⟨?_, hnd⟩
            intro hin
            exact hfresh i hin (n, i) hmem rfl
          · intro i' hi' q hq
            rcases List.mem_cons.mp hi' with h1 | h1
            · subst h1
              have := List.any_eq_false.mp (Bool.not_eq_true _ ▸ hdup) q hq
              simpa using this
            · exact hfresh i' h1 q (by simp [hq])

theorem execOps_idxBlock_run {T : Type} (n : String) :
    ∀ (is : List String) (d : Db T),
      (d.tbls.any (fun p => p.1 == n)) = true →
      is.Nodup →
      (∀ i ∈ is, (d.idxs.any (fun q => q.2 == i)) = false) →
      execOps d (is.map (Op.createIdx n))
        = .ok ⟨d.tbls, d.idxs ++ is.map (fun i => (n, i)), d.rows⟩ := by
  intro is
  induction is with
  | nil => intro d _ _ _; simp [execOps]
  | cons i is' ih =>
      intro d htb hnd hfresh
      simp only [List.map_cons, execOps, applyOp]
      rw [if_neg (by simp [hfresh i (by simp)]), if_neg (by simp [htb])]
      have hstep := ih ⟨d.tbls, d.idxs ++ [(n, i)], d.rows⟩ (by simpa using htb)
        (List.nodup_cons.mp hnd).2 ?_
      · exact hstep.trans (by simp [List.append_assoc])
      · intro i' hi'
        simp only [List.any_append]
        have h1 := hfresh i' (by simp [hi'])
        have h2 : ((n, i).2 == i') = false := by
          refine beq_eq_false_iff_ne.mpr ?_
          intro hc
          have hc' : i = i' := hc
          exact (List.nodup_cons.mp hnd).1 (hc' ▸ hi')
        simp [h1, h2]

theorem execOps_recreate_shape {T : Type} (idxNames : String → T → List String) :
    ∀ (ts : List (String × T)) (d d' : Db T),
      (ts.map Prod.fst).Nodup →
      execOps d (ts.flatMap (tableOps idxNames)) = .ok d' →
      d'.tbls = d.tbls.filter (fun p => !(bmem p.1 (ts.map Prod.fst))) ++ ts
      ∧ d'.idxs = d.idxs.filter (fun p => !(bmem p.1 (ts.map Prod.fst)))
          ++ newIdxs idxNames ts
      ∧ d'.rows = d.rows.filter (fun p => !(bmem p.1 (ts.map Prod.fst)))
      ∧ (allNewIdx idxNames ts).Nodup
      ∧ (∀ q ∈ d.idxs, q.1 ∉ ts.map Prod.fst → q.2 ∉ allNewIdx idxNames ts) := by
  intro ts
  induction ts with
  | nil =>
      intro d d' _ h
      simp only [List.flatMap_nil, execOps] at h
      cases h
      exact ⟨by simp [bmem], by simp [bmem, newIdxs], by simp [bmem],
        by simp [allNewIdx], by simp [allNewIdx]⟩
  | cons p rest ih =>
      obtain ⟨n, t⟩ := p
      intro d d' hnd h
      have hmc : (List.map Prod.fst ((n, t) :: rest)) = n :: rest.map Prod.fst := by
        simp
      have hsplit := List.nodup_cons.mp (hmc ▸ hnd)
      have hnn : n ∉ rest.map Prod.fst := hsplit.1
      have hndr : (rest.map Prod.fst).Nodup := hsplit.2
      rw [List.flatMap_cons] at h
      simp only [tableOps, List.cons_append] at h
      simp only [execOps, applyOp, any_key_filter_self, Bool.false_eq_true,
        if_false] at h
      rw [execOps_append] at h
      cases hblock : execOps
          ⟨d.tbls.filter (fun p => !(p.1 == n)) ++ [(n, t)],
            d.idxs.filter (fun p => !(p.1 == n)),
            d.rows.filter (fun p => !(p.1 == n))⟩
          ((idxNames n t).map (Op.createIdx n)) with
      | error e => rw [hblock] at h; cases h
      | ok d3 =>
          rw [hblock] at h
          obtain ⟨ht3, hr3, hx3, hndN, hfreshN⟩ :=
            execOps_idxBlock_shape n (idxNames n t) _ d3 hblock
          obtain ⟨htb', hix', hrw', hnodup', hfresh'⟩ := ih d3 d' hndr h
          have hmapfst : ((n, t) :: rest).map Prod.fst = n :: rest.map Prod.fst := by
            simp
          have hkeepnt : ([((n, t))].filter
              (fun p => !(bmem p.1 (rest.map Prod.fst)))) = [(n, t)] := by
            simp [(bmem_eq_false_iff n (rest.map Prod.fst)).mpr hnn]
          have hkeepmap : (((idxNames n t).map (fun i => (n, i))).filter
              (fun p => !(bmem p.1 (rest.map Prod.fst))))
              = (idxNames n t).map (fun i => (n, i)) := by
            refine keyfilter_not_keep_all _ _ ?_
            intro q hq
            obtain ⟨i, _, rfl⟩ := List.mem_map.mp hq
            exact hnn
          refine ⟨?_, ?_, ?_, ?_, ?_⟩
          · rw [htb', ht3, hmapfst, List.filter_append, hkeepnt,
              keyfilter_ne_nmem]
            simp
          · rw [hix', hx3, hmapfst, List.filter_append, hkeepmap,
              keyfilter_ne_nmem, newIdxs_cons]
            simp [List.append_assoc]
          · rw [hrw', hr3, hmapfst, keyfilter_ne_nmem]
          · rw [allNewIdx_cons]
            refine List.nodup_append.mpr ⟨hndN, hnodup', ?_⟩
            intro i hi hi'
            have hq : (n, i) ∈ d3.idxs := by
              rw [hx3]
              exact List.mem_append_right _ (List.mem_map_of_mem _ hi)
            exact hfresh' (n, i) hq hnn hi'
          · intro q hq hmem
            rw [hmapfst] at hmem
            have hq1n : q.1 ≠ n := fun hc => hmem (by simp [hc])
            have hq1r : q.1 ∉ rest.map Prod.fst := fun hc => hmem (by simp [hc])
            have hqf : q ∈ d.idxs.filter (fun p => !(p.1 == n)) := by
              refine List.mem_filter.mpr ⟨hq, ?_⟩
              simp [hq1n]
            rw [allNewIdx_cons]
            intro hin
            rcases List.mem_append.mp hin with h1 | h1
            · exact hfreshN q.2 h1 q hqf rfl
            · have hqd3 : q ∈ d3.idxs := by
                rw [hx3]
                exact List.mem_append_left _ hqf
              exact hfresh' q hqd3 hq1r h1

theorem execOps_append_ok {T : Type} (l1 l2 : List (Op T)) (d d1 : Db T)
    (h : execOps d l1 = .ok d1) :
    execOps d (l1 ++ l2) = execOps d1 l2 := by
  rw [execOps_append, h]

theorem execOps_recreate_reexec {T : Type} (idxNames : String → T → List String) :
    ∀ (ts : List (String × T)),
      (ts.map Prod.fst).Nodup →
      (allNewIdx idxNames ts).Nodup →
      ∀ (tb : List (String × T)) (ix : List (String × String))
        (rws : List (String × Nat)),
      tb.filter (fun p => bmem p.1 (ts.map Prod.fst)) = ts →
      ix.filter (fun p => bmem p.1 (ts.map Prod.fst)) = newIdxs idxNames ts →
      (∀ q ∈ ix, q.1 ∉ ts.map Prod.fst → q.2 ∉ allNewIdx idxNames ts) →
      execOps ⟨tb, ix, rws⟩ (ts.flatMap (tableOps idxNames))
        = .ok ⟨tb.filter (fun p => !(bmem p.1 (ts.map Prod.fst))) ++ ts,
               ix.filter (fun p => !(bmem p.1 (ts.map Prod.fst)))
                 ++ newIdxs idxNames ts,
               rws.filter (fun p => !(bmem p.1 (ts.map Prod.fst)))⟩ := by
  intro ts
  induction ts with
  | nil =>
      intro _ _ tb ix rws _ _ _
      simp [execOps, bmem, newIdxs]
  | cons p rest ih =>
      obtain ⟨n, t⟩ := p
      intro hnd hndA0 tb ix rws htb hix0 hfresh0
      have hmc : (List.map Prod.fst ((n, t) :: rest)) = n :: rest.map Prod.fst := by
        simp
      rw [hmc] at htb hix0 hfresh0 ⊢
      have hsplit := List.nodup_cons.mp (hmc ▸ hnd)
      have hnn : n ∉ rest.map Prod.fst := hsplit.1
      have hndr : (rest.map Prod.fst).Nodup := hsplit.2
      have hndA : (idxNames n t ++ allNewIdx idxNames rest).Nodup := by
        have h := hndA0
        rw [allNewIdx_cons] at h
        exact h
      have hAsplit := List.nodup_append.mp hndA
      have hndI : (idxNames n t).Nodup := hAsplit.1
      have hndRA : (allNewIdx idxNames rest).Nodup := hAsplit.2.1
      have hdisj : ∀ i ∈ idxNames n t, i ∉ allNewIdx idxNames rest :=
        fun i hi hc => hAsplit.2.2 hi hc
      have hix : ix.filter (fun p => bmem p.1 (n :: rest.map Prod.fst))
          = (idxNames n t).map (fun i => (n, i)) ++ newIdxs idxNames rest := by
        rw [hix0, newIdxs_cons]
      have hfresh : ∀ q ∈ ix, q.1 ∉ n :: rest.map Prod.fst →
          q.2 ∉ idxNames n t ++ allNewIdx idxNames rest := by
        intro q hq hh
        have h := hfresh0 q hq hh
        rw [allNewIdx_cons] at h
        exact h
      -- peel the DROP and CREATE statements
      rw [List.flatMap_cons]
      simp only [tableOps, List.cons_append]
      simp only [execOps, applyOp, any_key_filter_self, Bool.false_eq_true,
        if_false]
      -- the CREATE INDEX block
      have htbany : ((tb.filter (fun p => !(p.1 == n)) ++ [(n, t)]).any
          (fun p => p.1 == n)) = true := by
        simp
      have hfreshI : ∀ i ∈ idxNames n t,
          ((ix.filter (fun p => !(p.1 == n))).any (fun q => q.2 == i)) = false := by
        intro i hi
        refine List.any_eq_false.mpr ?_
        intro q hq
        have hqix : q ∈ ix := List.mem_of_mem_filter hq
        have hq1n : q.1 ≠ n := by
          have := List.of_mem_filter hq
          simpa using this
        by_cases hmem : q.1 ∈ n :: rest.map Prod.fst
        · have hbm : bmem q.1 (n :: rest.map Prod.fst) = true :=
            (bmem_iff _ _).mpr hmem
          have hqN : q ∈ (idxNames n t).map (fun i => (n, i))
              ++ newIdxs idxNames rest := by
            rw [← hix]
            exact List.mem_filter.mpr ⟨hqix, hbm⟩
          rcases List.mem_append.mp hqN with h1 | h1
          · obtain ⟨i', _, heq⟩ := List.mem_map.mp h1
            exact absurd (congrArg Prod.fst heq.symm) hq1n
          · have hmem2 : q.2 ∈ allNewIdx idxNames rest := mem_newIdxs_snd _ _ q h1
            intro hc
            exact hdisj i hi ((eq_of_beq hc) ▸ hmem2)
        · have h := hfresh q hqix hmem
          intro hc
          exact h (List.mem_append_left _ ((eq_of_beq hc).symm ▸ hi))
      have hblock := execOps_idxBlock_run n (idxNames n t)
        ⟨tb.filter (fun p => !(p.1 == n)) ++ [(n, t)],
          ix.filter (fun p => !(p.1 == n)),
          rws.filter (fun p => !(p.1 == n))⟩ htbany hndI hfreshI
      rw [execOps_append_ok _ _ _ _ hblock]
      -- the recursive call on the remaining tables
      have hketb : ((tb.filter (fun p => !(p.1 == n)) ++ [(n, t)]).filter
          (fun p => bmem p.1 (rest.map Prod.fst))) = rest := by
        rw [List.filter_append, keyfilter_ne_mem n _ hnn]
        have h1 : ([((n, t))].filter (fun p => bmem p.1 (rest.map Prod.fst)))
            = [] := by
          simp [(bmem_eq_false_iff n (rest.map Prod.fst)).mpr hnn]
        rw [h1, List.append_nil]
        have h2 : tb.filter (fun p => bmem p.1 (rest.map Prod.fst))
            = (tb.filter (fun p => bmem p.1 (n :: rest.map Prod.fst))).filter
                (fun p => bmem p.1 (rest.map Prod.fst)) := by
          rw [keyfilter_sub _ _ (fun x hx => List.mem_cons_of_mem n hx)]
        rw [h2, htb, List.filter_cons]
        simp only [(bmem_eq_false_iff n (rest.map Prod.fst)).mpr hnn,
          Bool.false_eq_true, if_false]
        exact keyfilter_keep_all _ _ (fun p hp => List.mem_map_of_mem _ hp)
      have hkeix : ((ix.filter (fun p => !(p.1 == n))
            ++ (idxNames n t).map (fun i => (n, i))).filter
          (fun p => bmem p.1 (rest.map Prod.fst))) = newIdxs idxNames rest := by
        rw [List.filter_append, keyfilter_ne_mem n _ hnn]
        have h1 : (((idxNames n t).map (fun i => (n, i))).filter
            (fun p => bmem p.1 (rest.map Prod.fst))) = [] := by
          refine List.filter_eq_nil_iff.mpr ?_
          intro q hq
          obtain ⟨i, _, rfl⟩ := List.mem_map.mp hq
          simp [(bmem_eq_false_iff n (rest.map Prod.fst)).mpr hnn]
        rw [h1, List.append_nil]
        have h2 : ix.filter (fun p => bmem p.1 (rest.map Prod.fst))
            = (ix.filter (fun p => bmem p.1 (n :: rest.map Prod.fst))).filter
                (fun p => bmem p.1 (rest.map Prod.fst)) := by
          rw [keyfilter_sub _ _ (fun x hx => List.mem_cons_of_mem n hx)]
        rw [h2, hix, List.filter_append]
        have h3 : (((idxNames n t).map (fun i => (n, i))).filter
            (fun p => bmem p.1 (rest.map Prod.fst))) = [] := by
          refine List.filter_eq_nil_iff.mpr ?_
          intro q hq
          obtain ⟨i, _, rfl⟩ := List.mem_map.mp hq
          simp [(bmem_eq_false_iff n (rest.map Prod.fst)).mpr hnn]
        rw [h3, List.nil_append]
        exact keyfilter_keep_all _ _ (mem_newIdxs_key idxNames rest)
      have hfresh' : ∀ q ∈ (ix.filter (fun p => !(p.1 == n))
            ++ (idxNames n t).map (fun i => (n, i))),
          q.1 ∉ rest.map Prod.fst → q.2 ∉ allNewIdx idxNames rest := by
        intro q hq hqr
        rcases List.mem_append.mp hq with h1 | h1
        · have hqix : q ∈ ix := List.mem_of_mem_filter h1
          have hq1n : q.1 ≠ n := by
            have := List.of_mem_filter h1
            simpa using this
          have hnm : q.1 ∉ n :: rest.map Prod.fst := by
            intro hc
            rcases List.mem_cons.mp hc with h2 | h2
            · exact hq1n h2
            · exact hqr h2
          have h := hfresh q hqix hnm
          exact fun hc => h (List.mem_append_right _ hc)
        · obtain ⟨i, hi, rfl⟩ := List.mem_map.mp h1
          exact hdisj i hi
      have hrec := ih hndr hndRA
        (tb.filter (fun p => !(p.1 == n)) ++ [(n, t)])
        (ix.filter (fun p => !(p.1 == n)) ++ (idxNames n t).map (fun i => (n, i)))
        (rws.filter (fun p => !(p.1 == n)))
        hketb hkeix hfresh'
      rw [hrec]
      -- identify the resulting state with the target state
      have etb : ((tb.filter (fun p => !(p.1 == n)) ++ [(n, t)]).filter
            (fun p => !(bmem p.1 (rest.map Prod.fst)))) ++ rest
          = tb.filter (fun p => !(bmem p.1 (n :: rest.map Prod.fst)))
            ++ (n, t) :: rest := by
        rw [List.filter_append, keyfilter_ne_nmem]
        have h1 : ([((n, t))].filter (fun p => !(bmem p.1 (rest.map Prod.fst))))
            = [(n, t)] := by
          simp [(bmem_eq_false_iff n (rest.map Prod.fst)).mpr hnn]
        rw [h1]
        simp
      have eix : ((ix.filter (fun p => !(p.1 == n))
              ++ (idxNames n t).map (fun i => (n, i))).filter
            (fun p => !(bmem p.1 (rest.map Prod.fst)))) ++ newIdxs idxNames rest
          = ix.filter (fun p => !(bmem p.1 (n :: rest.map Prod.fst)))
            ++ newIdxs idxNames ((n, t) :: rest) := by
        rw [List.filter_append, keyfilter_ne_nmem, newIdxs_cons]
        have h1 : (((idxNames n t).map (fun i => (n, i))).filter
            (fun p => !(bmem p.1 (rest.map Prod.fst))))
            = (idxNames n t).map (fun i => (n, i)) := by
          refine keyfilter_not_keep_all _ _ ?_
          intro q hq
          obtain ⟨i, _, rfl⟩ := List.mem_map.mp hq
          exact hnn
        rw [h1]
        simp [List.append_assoc]
      have erw : ((rws.filter (fun p => !(p.1 == n))).filter
            (fun p => !(bmem p.1 (rest.map Prod.fst))))
          = rws.filter (fun p => !(bmem p.1 (n :: rest.map Prod.fst))) := by
        rw [keyfilter_ne_nmem]
      rw [etb, eix, erw]

/-! ## Claims -/

/-- C2: the batch `recreateTables` submits to the client is exactly the
deferred-foreign-keys statement first, followed by, for each table in
declaration order of the mapping, its DROP-TABLE-IF-EXISTS statement, its
CREATE-TABLE statement, then its CREATE-INDEX statements in order — with no
other statements and no reordering. -/
theorem recreateTables_batch_shape {T : Type}
    (getCreateTableQuery : String → T → String)
    (getCreateIndexQueries : String → T → List String)
    (escapeName : String → String) (tables : List (String × T)) :
    recreateTablesBatch getCreateTableQuery getCreateIndexQueries escapeName tables
      = deferFKStmt
        :: tables.flatMap (fun p =>
            dropStmt escapeName p.1 :: getCreateTableQuery p.1 p.2
              :: getCreateIndexQueries p.1 p.2) := by
  unfold recreateTablesBatch setupQueries
  rw [foldl_append_eq_flatMap]
  simp

/-- Decomposition of the seeded local module text: fixed prefix, then the
`await seedLocal({...})` statement, then the config re-export and the
per-table export statements. -/
theorem localContents_seed_decomp {T : Type} (stringifyTable : T → String)
    (pathResolve : String → String → String) (rootPath dbUrlHref : String)
    (tables : List (String × T)) (seedFiles : List SeedFile) :
    getLocalVirtualModContents stringifyTable pathResolve rootPath dbUrlHref
        tables seedFiles true
      = ("\nimport { asDrizzleTable, createLocalDatabaseClient } from "
          ++ RUNTIME_IMPORT ++ ";\n"
          ++ ("import { seedLocal } from " ++ RUNTIME_IMPORT ++ ";")
          ++ "\n\nconst dbUrl = " ++ jsonStringify dbUrlHref
          ++ ";\nexport const db = createLocalDatabaseClient({ dbUrl });\n\n")
        ++ seedStmt (integrationSeedImports pathResolve rootPath seedFiles)
        ++ ("\n\nexport * from " ++ RUNTIME_CONFIG_IMPORT ++ ";\n\n"
            ++ getStringifiedCollectionExports stringifyTable tables) := by
  simp [getLocalVirtualModContents, String.append_assoc]

/-- C1: `resolve` declines for every id other than the reserved virtual
specifier; in remote-managed mode it returns the plain virtual id for every
importer; in local mode it returns one of the two virtual ids, and returns
the seed-bearing one exactly when the importer is present (and non-empty),
resolves, and the resolved importer path starts with the project's source
directory path — for every other importer (absent, empty, or unresolvable)
it returns the plain virtual id. -/
theorem resolveIdHook_characterization (connectToStudio : Bool)
    (srcDirPath : String) (resolveImporter : String → Option String)
    (id : String) (rawImporter : Option String) :
    (id ≠ VIRTUAL_MODULE_ID →
      resolveIdHook connectToStudio srcDirPath resolveImporter id rawImporter = none)
    ∧ (id = VIRTUAL_MODULE_ID → connectToStudio = true →
      resolveIdHook connectToStudio srcDirPath resolveImporter id rawImporter
        = some resolvedVirtual)
    ∧ (id = VIRTUAL_MODULE_ID → connectToStudio = false →
      ((resolveIdHook connectToStudio srcDirPath resolveImporter id rawImporter
          = some resolvedSeedVirtual
        ∨ resolveIdHook connectToStudio srcDirPath resolveImporter id rawImporter
          = some resolvedVirtual)
      ∧ (resolveIdHook connectToStudio srcDirPath resolveImporter id rawImporter
          = some resolvedSeedVirtual
        ↔ ∃ raw, rawImporter = some raw ∧ raw ≠ ""
            ∧ ∃ importerId, resolveImporter raw = some importerId
            ∧ strStarts importerId srcDirPath = true))) := by
  refine ⟨fun h => by simp [resolveIdHook, h], fun hid hcs => by
    simp [resolveIdHook, hid, hcs], fun hid hcs => ?_⟩
  subst hid hcs
  have hvs : ¬ (some resolvedVirtual = some resolvedSeedVirtual) := by decide
  cases rawImporter with
  | none =>
      rw [resolveIdHook_local_none]
      refine ⟨Or.inr rfl, hvs.elim, ?_⟩
      rintro ⟨raw, hraw, -⟩
      cases hraw
  | some raw =>
      by_cases hraw : raw = ""
      · subst hraw
        rw [resolveIdHook_local_empty]
        refine ⟨Or.inr rfl, hvs.elim, ?_⟩
        rintro ⟨raw', hraw', hne, -⟩
        cases hraw'
        exact absurd rfl hne
      · cases hri : resolveImporter raw with
        | none =>
            rw [resolveIdHook_local_unresolved srcDirPath resolveImporter raw hraw hri]
            refine ⟨Or.inr rfl, hvs.elim, ?_⟩
            rintro ⟨raw', hraw', -, importerId, hid', -⟩
            cases hraw'
            rw [hri] at hid'
            cases hid'
        | some importerId =>
            rw [resolveIdHook_local_resolved srcDirPath resolveImporter raw
              importerId hraw hri]
            by_cases hs : strStarts importerId srcDirPath
            · rw [if_pos hs]
              exact ⟨Or.inl rfl, fun _ => ⟨raw, rfl, hraw, importerId, hri, hs⟩,
                fun _ => rfl⟩
            · rw [if_neg hs]
              refine ⟨Or.inr rfl, hvs.elim, ?_⟩
              rintro ⟨raw', hraw', -, importerId', hid', hs'⟩
              cases hraw'
              rw [hri] at hid'
              cases hid'
              exact absurd hs' hs

/-- C1 witness: in local mode an importer resolved under the source directory
receives the seed-bearing id. -/
theorem resolveIdHook_characterization_witness :
    resolveIdHook false "/proj/src/" (fun _ => some "/proj/src/pages/index.astro")
      VIRTUAL_MODULE_ID (some "src/pages/index.astro") = some resolvedSeedVirtual :=
  ((resolveIdHook_characterization false "/proj/src/"
      (fun _ => some "/proj/src/pages/index.astro")
      VIRTUAL_MODULE_ID (some "src/pages/index.astro")).2.2 rfl rfl).2.mpr
    ⟨"src/pages/index.astro", rfl, by decide, "/proj/src/pages/index.astro",
      rfl, by decide⟩

/-- C3: when the loaded module id equals one of the conventionally named local
seed file paths (and is neither of the two virtual ids), `load` invokes and
awaits `recreateTables` before deciding: if the resynchronization errors, the
error propagates out of `load` with no module text; if it completes, `load`
declines for that id (the seed file's own content is handled by the bundler),
having run the recreation. -/
theorem load_seed_file_resync (connectToStudio : Bool)
    (seedFilePaths : List String) (studioText : String)
    (localText : Bool → String) (id : String)
    (hhit : id ∈ seedFilePaths) (hv : id ≠ resolvedVirtual)
    (hsv : id ≠ resolvedSeedVirtual) :
    (∀ e, loadHook connectToStudio seedFilePaths (.error e) studioText localText id
        = .error e)
    ∧ loadHook connectToStudio seedFilePaths (.ok ()) studioText localText id
        = .ok ⟨true, .declined⟩ :=
  ⟨fun e => loadHook_hit_error connectToStudio seedFilePaths studioText
      localText id e hhit,
    loadHook_hit_ok_declined connectToStudio seedFilePaths studioText
      localText id hhit hv hsv⟩

/-- C3 witness: loading a concrete seed file path runs the recreation and
declines. -/
theorem load_seed_file_resync_witness :
    loadHook false ["/proj/db/seed.ts"] (.ok ()) "" (fun _ => "") "/proj/db/seed.ts"
      = .ok ⟨true, .declined⟩ ∧
    loadHook false ["/proj/db/seed.ts"] (.error "bad schema") "" (fun _ => "")
      "/proj/db/seed.ts" = .error "bad schema" := by
  have h := load_seed_file_resync false ["/proj/db/seed.ts"] "" (fun _ => "")
    "/proj/db/seed.ts" (by simp) (by decide) (by decide)
  exact ⟨h.2, h.1 "bad schema"⟩

/-- C7 counterexample: a load call whose id is the seed-bearing virtual id
does not invoke `recreateTables` — the hook reports `recreateRan = false` and
succeeds even though the recreation outcome would have been an error, because
the seed-bearing virtual id is not one of the seed file paths. -/
theorem load_seedVirtual_no_recreate_cex :
    loadHook false ["/proj/db/seed.ts"] (.error "recreate failed") "studio"
        (fun b => if b then "seeded" else "plain") resolvedSeedVirtual
      = .ok ⟨false, .contents "seeded"⟩ := by
  have h := loadHook_miss_seedVirtual false ["/proj/db/seed.ts"]
    (.error "recreate failed") "studio" (fun b => if b then "seeded" else "plain")
    (by decide)
  simpa using h

/-- C7 (amended): loading the seed-bearing virtual id does not itself invoke
`recreateTables` (only seed-file-path loads do, provided the seed-bearing id —
which starts with a NUL byte — is not among the seed file paths); instead,
`load` returns the local module contents generated with `shouldSeed = true`,
whose text contains the awaited `seedLocal` invocation, so seed execution is
triggered by evaluating the returned module text. -/
theorem load_seedVirtual_amended {T : Type} (stringifyTable : T → String)
    (pathResolve : String → String → String) (rootPath dbUrlHref : String)
    (tables : List (String × T)) (seedFiles : List SeedFile) (appToken : String)
    (seedFilePaths : List String) (recreateOutcome : Except String Unit)
    (hns : resolvedSeedVirtual ∉ seedFilePaths) :
    vitePluginDbLoad stringifyTable pathResolve rootPath dbUrlHref tables
        seedFiles appToken false seedFilePaths recreateOutcome resolvedSeedVirtual
      = .ok ⟨false, .contents (getLocalVirtualModContents stringifyTable
          pathResolve rootPath dbUrlHref tables seedFiles true)⟩
    ∧ ∃ pre post,
        getLocalVirtualModContents stringifyTable pathResolve rootPath dbUrlHref
            tables seedFiles true
          = pre ++ seedStmt (integrationSeedImports pathResolve rootPath seedFiles)
            ++ post := by
  constructor
  · have h := loadHook_miss_seedVirtual false seedFilePaths recreateOutcome
      (getStudioVirtualModContents stringifyTable tables appToken)
      (fun shouldSeed =>
        getLocalVirtualModContents stringifyTable pathResolve rootPath dbUrlHref
          tables seedFiles shouldSeed)
      hns
    simpa [vitePluginDbLoad] using h
  · exact ⟨_, _, localContents_seed_decomp stringifyTable pathResolve rootPath
      dbUrlHref tables seedFiles⟩

/-- C7 amended-claim witness: concrete instantiation of the amended claim. -/
theorem load_seedVirtual_amended_witness :
    vitePluginDbLoad (fun _ : Unit => "{}") (fun r s => r ++ "/" ++ s) "/proj"
        "file:///proj/.astro/content.db" [("foo", ())] [] "token" false
        ["/proj/db/seed.ts"] (.error "recreate failed") resolvedSeedVirtual
      = .ok ⟨false, .contents (getLocalVirtualModContents (fun _ : Unit => "{}")
          (fun r s => r ++ "/" ++ s) "/proj" "file:///proj/.astro/content.db"
          [("foo", ())] [] true)⟩ :=
  (load_seedVirtual_amended (fun _ : Unit => "{}") (fun r s => r ++ "/" ++ s)
    "/proj" "file:///proj/.astro/content.db" [("foo", ())] [] "token"
    ["/proj/db/seed.ts"] (.error "recreate failed") (by decide)).1

/-- C10: the seed-file side effect of `load` is unconditional on execution
mode — with `connectToStudio = true`, a load whose id equals a seed file path
still invokes and awaits `recreateTables` (errors propagate; on success the
hook reports the recreation ran and declines), while a load of the plain
virtual id returns the studio module contents. -/
theorem load_studio_mode_seed_side_effect (seedFilePaths : List String)
    (studioText : String) (localText : Bool → String) (id : String)
    (hhit : id ∈ seedFilePaths) (hv : id ≠ resolvedVirtual)
    (hsv : id ≠ resolvedSeedVirtual) :
    (∀ e, loadHook true seedFilePaths (.error e) studioText localText id
        = .error e)
    ∧ loadHook true seedFilePaths (.ok ()) studioText localText id
        = .ok ⟨true, .declined⟩
    ∧ (∀ recreateOutcome, resolvedVirtual ∉ seedFilePaths →
        loadHook true seedFilePaths recreateOutcome studioText localText
            resolvedVirtual
          = .ok ⟨false, .contents studioText⟩) := by
  refine ⟨fun e => loadHook_hit_error true seedFilePaths studioText localText
      id e hhit,
    loadHook_hit_ok_declined true seedFilePaths studioText localText id
      hhit hv hsv, fun recreateOutcome hnv => ?_⟩
  have h := loadHook_miss_virtual true seedFilePaths recreateOutcome studioText
    localText hnv
  simpa using h

/-- C10 witness: concrete studio-mode instantiation. -/
theorem load_studio_mode_seed_side_effect_witness :
    loadHook true ["/proj/db/seed.ts"] (.error "recreate failed") "studio"
        (fun _ => "local") "/proj/db/seed.ts" = .error "recreate failed" :=
  (load_studio_mode_seed_side_effect ["/proj/db/seed.ts"] "studio"
    (fun _ => "local") "/proj/db/seed.ts" (by simp) (by decide) (by decide)).1
    "recreate failed"

/-- C4: the seeded local module text is the concatenation of its emission
segments; within those segments the eager glob import expression occurs
exactly once (in the seed statement), the deferred import thunk expression
occurs exactly once per integration-contributed seed path (zero when there
are none), and the awaited `seedLocal` invocation is placed before the
per-table export statements; with `shouldSeed = false` the emitted segments
contain no `seedLocal` occurrence at all. The occurrence hypotheses state
that the interpolated inputs do not themselves contain the marker strings. -/
theorem local_contents_seed_structure {T : Type} (stringifyTable : T → String)
    (pathResolve : String → String → String) (rootPath dbUrlHref : String)
    (tables : List (String × T)) (seedFiles : List SeedFile)
    (hG1 : strOcc "import.meta.glob(" (jsonStringify dbUrlHref) = 0)
    (hG2 : ∀ fp ∈ integrationSeedFilePaths pathResolve rootPath seedFiles,
      strOcc "import.meta.glob(" (jsonStringify fp) = 0)
    (hG3 : ∀ p ∈ tables, strOcc "import.meta.glob(" p.1 = 0
      ∧ strOcc "import.meta.glob(" (jsonStringify p.1) = 0
      ∧ strOcc "import.meta.glob(" (stringifyTable p.2) = 0)
    (hT1 : strOcc "() => import(" (jsonStringify dbUrlHref) = 0)
    (hT2 : ∀ fp ∈ integrationSeedFilePaths pathResolve rootPath seedFiles,
      strOcc "() => import(" (jsonStringify fp) = 0)
    (hT3 : ∀ p ∈ tables, strOcc "() => import(" p.1 = 0
      ∧ strOcc "() => import(" (jsonStringify p.1) = 0
      ∧ strOcc "() => import(" (stringifyTable p.2) = 0)
    (hS1 : strOcc "seedLocal" (jsonStringify dbUrlHref) = 0)
    (hS3 : ∀ p ∈ tables, strOcc "seedLocal" p.1 = 0
      ∧ strOcc "seedLocal" (jsonStringify p.1) = 0
      ∧ strOcc "seedLocal" (stringifyTable p.2) = 0) :
    (∀ shouldSeed, getLocalVirtualModContents stringifyTable pathResolve
        rootPath dbUrlHref tables seedFiles shouldSeed
      = String.join (localModAtoms stringifyTable pathResolve rootPath
          dbUrlHref tables seedFiles shouldSeed))
    ∧ partsOcc "import.meta.glob(" (localModAtoms stringifyTable pathResolve
        rootPath dbUrlHref tables seedFiles true) = 1
    ∧ partsOcc "() => import(" (localModAtoms stringifyTable pathResolve
        rootPath dbUrlHref tables seedFiles true)
      = (integrationSeedFilePaths pathResolve rootPath seedFiles).length
    ∧ (seedFiles = [] →
        (integrationSeedFilePaths pathResolve rootPath seedFiles).length = 0)
    ∧ (∃ pre, getLocalVirtualModContents stringifyTable pathResolve rootPath
          dbUrlHref tables seedFiles true
        = pre ++ seedStmt (integrationSeedImports pathResolve rootPath seedFiles)
          ++ ("\n\nexport * from " ++ RUNTIME_CONFIG_IMPORT ++ ";\n\n"
              ++ getStringifiedCollectionExports stringifyTable tables))
    ∧ partsOcc "seedLocal" (localModAtoms stringifyTable pathResolve rootPath
        dbUrlHref tables seedFiles false) = 0 := by
  refine ⟨fun shouldSeed => (localModAtoms_join stringifyTable pathResolve
      rootPath dbUrlHref tables seedFiles shouldSeed).symm, ?_, ?_, ?_,
    ⟨_, localContents_seed_decomp stringifyTable pathResolve rootPath dbUrlHref
      tables seedFiles⟩, ?_⟩
  · have hz := partsOcc_thunkListAtoms_zero "import.meta.glob("
      (integrationSeedFilePaths pathResolve rootPath seedFiles)
      (by decide) (by decide) (by decide) hG2
    have he := partsOcc_exportsAtoms_zero "import.meta.glob(" stringifyTable
      tables (by decide) (by decide) (by decide) (by decide) (by decide) hG3
    rw [partsOcc_localModAtoms_seeded, hG1, hz, he]
    decide
  · have hm := partsOcc_thunkListAtoms_marker
      (integrationSeedFilePaths pathResolve rootPath seedFiles) hT2
    have he := partsOcc_exportsAtoms_zero "() => import(" stringifyTable
      tables (by decide) (by decide) (by decide) (by decide) (by decide) hT3
    have hc : partsOcc "() => import(" localFixedAtomsSeeded = 0 := by decide
    rw [partsOcc_localModAtoms_seeded, hT1, hm, he, hc]
    omega
  · intro h
    subst h
    rfl
  · have he := partsOcc_exportsAtoms_zero "seedLocal" stringifyTable tables
      (by decide) (by decide) (by decide) (by decide) (by decide) hS3
    rw [partsOcc_localModAtoms_unseeded, hS1, he]
    decide

/-- C4 witness: a concrete seeded rendering with one table and one
integration seed has exactly one glob expression among its segments. -/
theorem local_contents_seed_structure_witness :
    partsOcc "import.meta.glob(" (localModAtoms (fun _ : Unit => "{}")
      (fun r s => r ++ "/" ++ s) "/proj" "file:///proj/.astro/content.db"
      [("foo", ())] [SeedFile.path "./seeds/extra.ts"] true) = 1 :=
  (local_contents_seed_structure (fun _ : Unit => "{}")
    (fun r s => r ++ "/" ++ s) "/proj" "file:///proj/.astro/content.db"
    [("foo", ())] [SeedFile.path "./seeds/extra.ts"]
    (by decide) (by decide) (by decide) (by decide) (by decide) (by decide)
    (by decide) (by decide)).2.1

/-- C6: the studio module text is the concatenation of its emission segments;
those segments contain no `seedLocal` occurrence and no `import.meta.glob`
occurrence; the client constructor expression receives the JSON-stringified
access token and the endpoint expression reading the runtime environment
override with the fixed default URL as fallback; and the text ends with the
same per-table export statements as the local variant (the shared
`getStringifiedCollectionExports`, one export statement per table). -/
theorem studio_contents_structure {T : Type} (stringifyTable : T → String)
    (tables : List (String × T)) (appToken : String)
    (hS1 : strOcc "seedLocal" (jsonStringify appToken) = 0)
    (hS3 : ∀ p ∈ tables, strOcc "seedLocal" p.1 = 0
      ∧ strOcc "seedLocal" (jsonStringify p.1) = 0
      ∧ strOcc "seedLocal" (stringifyTable p.2) = 0)
    (hG1 : strOcc "import.meta.glob" (jsonStringify appToken) = 0)
    (hG3 : ∀ p ∈ tables, strOcc "import.meta.glob" p.1 = 0
      ∧ strOcc "import.meta.glob" (jsonStringify p.1) = 0
      ∧ strOcc "import.meta.glob" (stringifyTable p.2) = 0) :
    getStudioVirtualModContents stringifyTable tables appToken
      = String.join (studioModAtoms stringifyTable tables appToken)
    ∧ partsOcc "seedLocal" (studioModAtoms stringifyTable tables appToken) = 0
    ∧ partsOcc "import.meta.glob"
        (studioModAtoms stringifyTable tables appToken) = 0
    ∧ (∃ pre post, getStudioVirtualModContents stringifyTable tables appToken
        = pre ++ ("createRemoteDatabaseClient(" ++ jsonStringify appToken
            ++ ", import.meta.env.ASTRO_STUDIO_REMOTE_DB_URL ?? "
            ++ jsonStringify remoteDatabaseUrl ++ ")") ++ post)
    ∧ (∃ pre, getStudioVirtualModContents stringifyTable tables appToken
        = pre ++ getStringifiedCollectionExports stringifyTable tables ++ "\n\t")
    ∧ getStringifiedCollectionExports stringifyTable tables
      = joinSep "\n" (tables.map (exportLine stringifyTable)) := by
  refine ⟨(studioModAtoms_join stringifyTable tables appToken).symm, ?_, ?_,
    ?_, ?_, rfl⟩
  · have he := partsOcc_exportsAtoms_zero "seedLocal" stringifyTable tables
      (by decide) (by decide) (by decide) (by decide) (by decide) hS3
    rw [partsOcc_studioModAtoms, hS1, he]
    decide
  · have he := partsOcc_exportsAtoms_zero "import.meta.glob" stringifyTable
      tables (by decide) (by decide) (by decide) (by decide) (by decide) hG3
    rw [partsOcc_studioModAtoms, hG1, he]
    decide
  · refine ⟨"\nimport {asDrizzleTable, createRemoteDatabaseClient} from "
        ++ RUNTIME_IMPORT ++ ";\n\nexport const db = await ",
      ";\n\nexport * from " ++ RUNTIME_CONFIG_IMPORT ++ ";\n\n"
        ++ getStringifiedCollectionExports stringifyTable tables ++ "\n\t", ?_⟩
    have e1 : (";\n\nexport const db = await createRemoteDatabaseClient(" : String)
        = ";\n\nexport const db = await " ++ "createRemoteDatabaseClient(" := by
      decide
    have e2 : (");\n\nexport * from " : String)
        = ")" ++ ";\n\nexport * from " := by decide
    unfold getStudioVirtualModContents
    rw [e1, e2]
    simp only [String.append_assoc]
  · refine ⟨"\nimport {asDrizzleTable, createRemoteDatabaseClient} from "
        ++ RUNTIME_IMPORT
        ++ ";\n\nexport const db = await createRemoteDatabaseClient("
        ++ jsonStringify appToken
        ++ ", import.meta.env.ASTRO_STUDIO_REMOTE_DB_URL ?? "
        ++ jsonStringify remoteDatabaseUrl
        ++ ");\n\nexport * from " ++ RUNTIME_CONFIG_IMPORT ++ ";\n\n", ?_⟩
    simp [getStudioVirtualModContents, String.append_assoc]

/-- C6 witness: a concrete studio rendering has no `seedLocal` occurrence
among its segments. -/
theorem studio_contents_structure_witness :
    partsOcc "seedLocal" (studioModAtoms (fun _ : Unit => "{}")
      [("foo", ())] "app-token") = 0 :=
  (studio_contents_structure (fun _ : Unit => "{}") [("foo", ())] "app-token"
    (by decide) (by decide) (by decide) (by decide)).2.1

/-- C5: resynchronization is idempotent — if `recreateTables` applied to a
database state succeeds (producing `d1`), then running the same batch again
from `d1` succeeds and returns `d1` unchanged: the second invocation does not
error on the tables created by the first (each CREATE is preceded by its
DROP-IF-EXISTS in the same batch), and every recreated table is empty
afterwards (no row of the final state belongs to a recreated table). Table
names are assumed distinct, the invariant of the table-definition mapping. -/
theorem recreateTables_idempotent {T : Type}
    (idxNames : String → T → List String) (ts : List (String × T))
    (d d1 : Db T) (hnd : (ts.map Prod.fst).Nodup)
    (h1 : runRecreateTables idxNames ts d = .ok d1) :
    runRecreateTables idxNames ts d1 = .ok d1
    ∧ (∀ r ∈ d1.rows, r.1 ∉ ts.map Prod.fst) := by
  have h1' : execOps d (ts.flatMap (tableOps idxNames)) = .ok d1 := by
    have h := h1
    rw [runRecreateTables, recreateOps, execOps_deferFK] at h
    exact h
  obtain ⟨htb, hix, hrw, hnodup, hfresh⟩ :=
    execOps_recreate_shape idxNames ts d d1 hnd h1'
  have hkeepts : ts.filter (fun p => bmem p.1 (ts.map Prod.fst)) = ts :=
    keyfilter_keep_all _ _ (fun p hp => List.mem_map_of_mem _ hp)
  have hdropts : ts.filter (fun p => !(bmem p.1 (ts.map Prod.fst))) = [] :=
    keyfilter_drop_all _ _ (fun p hp => List.mem_map_of_mem _ hp)
  have hkeepN : (newIdxs idxNames ts).filter
      (fun p => bmem p.1 (ts.map Prod.fst)) = newIdxs idxNames ts :=
    keyfilter_keep_all _ _ (mem_newIdxs_key idxNames ts)
  have hdropN : (newIdxs idxNames ts).filter
      (fun p => !(bmem p.1 (ts.map Prod.fst))) = [] :=
    keyfilter_drop_all _ _ (mem_newIdxs_key idxNames ts)
  constructor
  · have hc : d1.tbls.filter (fun p => bmem p.1 (ts.map Prod.fst)) = ts := by
      rw [htb, List.filter_append, filter_not_then_filter, hkeepts,
        List.nil_append]
    have hd : d1.idxs.filter (fun p => bmem p.1 (ts.map Prod.fst))
        = newIdxs idxNames ts := by
      rw [hix, List.filter_append, filter_not_then_filter, hkeepN,
        List.nil_append]
    have he : ∀ q ∈ d1.idxs, q.1 ∉ ts.map Prod.fst →
        q.2 ∉ allNewIdx idxNames ts := by
      intro q hq hqn
      rw [hix] at hq
      rcases List.mem_append.mp hq with hq1 | hq1
      · exact hfresh q (List.mem_of_mem_filter hq1) hqn
      · exact absurd (mem_newIdxs_key idxNames ts q hq1) hqn
    have hre := execOps_recreate_reexec idxNames ts hnd hnodup
      d1.tbls d1.idxs d1.rows hc hd he
    rw [runRecreateTables, recreateOps, execOps_deferFK]
    refine hre.trans ?_
    congr 1
    have etb : d1.tbls.filter (fun p => !(bmem p.1 (ts.map Prod.fst))) ++ ts
        = d1.tbls := by
      rw [htb, List.filter_append, filter_not_idem, hdropts, List.append_nil]
    have eix : d1.idxs.filter (fun p => !(bmem p.1 (ts.map Prod.fst)))
        ++ newIdxs idxNames ts = d1.idxs := by
      rw [hix, List.filter_append, filter_not_idem, hdropN, List.append_nil]
    have erw : d1.rows.filter (fun p => !(bmem p.1 (ts.map Prod.fst)))
        = d1.rows := by
      rw [hrw, filter_not_idem]
    rw [etb, eix, erw]
  · intro r hr
    rw [hrw] at hr
    have h := List.of_mem_filter hr
    intro hc
    rw [(bmem_iff _ _).mpr hc] at h
    cases h

/-- C5 witness: recreating one table with one index from the state the first
run produced succeeds and leaves that state unchanged. -/
theorem recreateTables_idempotent_witness :
    runRecreateTables (fun _ _ => ["idx_foo"]) [("foo", ())]
        (⟨[("foo", ())], [("foo", "idx_foo")], []⟩ : Db Unit)
      = .ok ⟨[("foo", ())], [("foo", "idx_foo")], []⟩ :=
  (recreateTables_idempotent (fun _ _ => ["idx_foo"]) [("foo", ())]
    ⟨[], [], []⟩ ⟨[("foo", ())], [("foo", "idx_foo")], []⟩
    (by decide) (by rfl)).1

/-- C9: each integration-contributed seed reference yields exactly one
deferred import thunk whose path is concrete at generation time: a
dot-relative path string is resolved against the project root with
`path.resolve`, any other string is kept unchanged, and a URL contributes its
pathname unchanged. -/
theorem integration_seed_resolution (pathResolve : String → String → String)
    (rootPath : String) (seedFiles : List SeedFile) :
    integrationSeedImports pathResolve rootPath seedFiles
      = seedFiles.map (fun sf =>
          seedThunk (match sf with
            | .path s => if strStarts s "." then pathResolve rootPath s else s
            | .url p => p)) := by
  simp only [integrationSeedImports, integrationSeedFilePaths, List.map_map]
  apply List.map_congr_left
  intro sf _
  cases sf with
  | path s => simp [resolveSeedId]
  | url p => simp

/-- C8: rendering is deterministic — both generators are pure functions of
their inputs (equal inputs give byte-identical texts); the environment
override appears only as an `import.meta.env` read inside the generated text,
evaluated at the generated module's own load time. -/
theorem rendering_deterministic {T : Type} (stringifyTable stringifyTable' : T → String)
    (pathResolve pathResolve' : String → String → String)
    (rootPath rootPath' dbUrlHref dbUrlHref' : String)
    (tables tables' : List (String × T)) (seedFiles seedFiles' : List SeedFile)
    (shouldSeed shouldSeed' : Bool) (appToken appToken' : String)
    (h1 : stringifyTable = stringifyTable') (h2 : pathResolve = pathResolve')
    (h3 : rootPath = rootPath') (h4 : dbUrlHref = dbUrlHref')
    (h5 : tables = tables') (h6 : seedFiles = seedFiles')
    (h7 : shouldSeed = shouldSeed') (h8 : appToken = appToken') :
    getLocalVirtualModContents stringifyTable pathResolve rootPath dbUrlHref
        tables seedFiles shouldSeed
      = getLocalVirtualModContents stringifyTable' pathResolve' rootPath'
          dbUrlHref' tables' seedFiles' shouldSeed'
    ∧ getStudioVirtualModContents stringifyTable tables appToken
      = getStudioVirtualModContents stringifyTable' tables' appToken' := by
  subst h1 h2 h3 h4 h5 h6 h7 h8
  exact ⟨rfl, rfl⟩

/-- C8 witness: a concrete pair of identical calls renders identically. -/
theorem rendering_deterministic_witness :
    getLocalVirtualModContents (fun _ : Unit => "{}") (fun r s => r ++ "/" ++ s)
        "/proj" "file:///proj/.astro/content.db" [("foo", ())] [] true
      = getLocalVirtualModContents (fun _ : Unit => "{}") (fun r s => r ++ "/" ++ s)
          "/proj" "file:///proj/.astro/content.db" [("foo", ())] [] true :=
  (rendering_deterministic (fun _ : Unit => "{}") (fun _ : Unit => "{}")
    (fun r s => r ++ "/" ++ s) (fun r s => r ++ "/" ++ s) "/proj" "/proj"
    "file:///proj/.astro/content.db" "file:///proj/.astro/content.db"
    [("foo", ())] [("foo", ())] [] [] true true "t" "t"
    rfl rfl rfl rfl rfl rfl rfl rfl).1

end AstroDb
